import Mathlib

/-!
Verification of the tiles-downloader repository against its specification.

The Rust sources are shallowly embedded below.  Machine integers are
modelled as `Nat`; where an arithmetic operation on a fixed-width integer
can overflow on inputs reachable from a function argument, the embedding
uses the release-mode (two-complement wrapping / masked-shift) semantics
of Rust, written out as explicit `% 2 ^ w` reductions.  A separate
checked variant (returning `Option`, `none` = panic) is used for the one
claim that is about panic freedom under debug-mode overflow checks.
-/

/-! ### Coordinate model: `src/osm_tile_downloader/src/geo_trig.rs` and
`src/crooked_earth/src/geo_trig.rs` -/

/-- Result of `2u64.pow(z)` in a release build: wraps modulo `2 ^ 64`. -/
def pow2u64 (z : Nat) : Nat := 2 ^ z % 2 ^ 64

/-- Loop body of `xyz_to_bing_quadkey` for loop index `i` (the source
iterates `i` over `(1..=z).rev()`): `mask = 1u64 << (i - 1)` (a release
build masks the shift amount modulo 64), then the digit is
`(x & mask != 0) + 2 * (y & mask != 0)`. -/
def bing_digit (x y i : Nat) : Nat :=
  let mask : Nat := 2 ^ ((i - 1) % 64)
  (if x &&& mask ≠ 0 then 1 else 0) + (if y &&& mask ≠ 0 then 2 else 0)

/-- Embedding of `xyz_to_bing_quadkey` from
`src/osm_tile_downloader/src/geo_trig.rs`: for `i` from `z` down to `1`
push the character of `bing_digit x y i` (a digit in `0..=3`, so its
decimal rendering is the single character of code `48 + digit`). -/
def xyz_to_bing_quadkey (x y z : Nat) : String :=
  String.mk ((List.range z).map (fun j => Char.ofNat (48 + bing_digit x y (z - j))))

/-- Bit-pair decoding of a quadkey, following the words of the spec: each
digit contributes its low bit to `x` and its next bit to `y`, most
significant position first. -/
def quadkey_decode (s : String) : Nat × Nat :=
  (s.data.foldl (fun a c => 2 * a + (c.toNat - 48) % 2) 0,
   s.data.foldl (fun a c => 2 * a + (c.toNat - 48) / 2 % 2) 0)

/-- Tile coordinate, `TileCoord { x: u64, y: u64, z: u8 }` from
`src/crooked_earth/src/geo_trig.rs`. -/
structure TileCoord where
  x : Nat
  y : Nat
  z : Nat
deriving DecidableEq, Repr

/-- Embedding of `TileCoord::get_root_tiles` from
`src/crooked_earth/src/geo_trig.rs`: two nested loops
`for x in 0..2u64.pow(z)` (outer) and `for y in 0..2u64.pow(z)` (inner),
pushing `TileCoord { x, y, z }`.  `2u64.pow(z)` wraps in a release
build, hence `pow2u64`. -/
def TileCoord.get_root_tiles (z : Nat) : List TileCoord :=
  (List.range (pow2u64 z)).flatMap (fun x =>
    (List.range (pow2u64 z)).map (fun y => TileCoord.mk x y z))

/-- Bundle spawned per root tile by `spawn_root_planet_tiles` in
`src/crooked_earth/src/earth_fetch.rs`: a `SpawnTilePls` whose webtile
carries the coordinate, the parent planet entity, no parent tile, no
children and `is_root: true`.  Entities are modelled as `Nat`. -/
structure SpawnTilePls where
  coord : TileCoord
  parent_planet : Nat
  parent_tile : Option Nat
  children_tiles : List Nat
  is_root : Bool
deriving DecidableEq, Repr

/-- Embedding of the inner loop of `spawn_root_planet_tiles` from
`src/crooked_earth/src/earth_fetch.rs` for one planet entity: one spawn
command per element of `get_root_tiles planet.root_zoom_level`. -/
def spawn_root_planet_tiles (planet_ent : Nat) (root_zoom_level : Nat) :
    List SpawnTilePls :=
  (TileCoord.get_root_tiles root_zoom_level).map
    (fun t => SpawnTilePls.mk t planet_ent none [] true)

/-! ### Helper lemmas for the quadkey round trip -/

lemma and_pow_ne (x k : Nat) : ((x &&& 2 ^ k ≠ 0) ↔ x / 2 ^ k % 2 = 1) := by
  rw [Nat.and_two_pow]
  rcases hb : x.testBit k with _ | _ <;>
    rw [Nat.testBit_to_div_mod] at hb <;> simp_all

lemma bing_digit_eq (x y z j : Nat) (hz : z ≤ 64) (hj : j < z) :
    bing_digit x y (z - j) = x / 2 ^ (z - 1 - j) % 2 + 2 * (y / 2 ^ (z - 1 - j) % 2) := by
  have hk : (z - j - 1) % 64 = z - 1 - j := by omega
  simp only [bing_digit, hk]
  have h1 := and_pow_ne x (z - 1 - j)
  have h2 := and_pow_ne y (z - 1 - j)
  have m1 : x / 2 ^ (z - 1 - j) % 2 = 0 ∨ x / 2 ^ (z - 1 - j) % 2 = 1 := by omega
  have m2 : y / 2 ^ (z - 1 - j) % 2 = 0 ∨ y / 2 ^ (z - 1 - j) % 2 = 1 := by omega
  rcases m1 with m1 | m1 <;> rcases m2 with m2 | m2 <;>
    simp [m1, m2] at h1 h2 ⊢ <;> simp [h1, h2, m1, m2]

lemma foldl_double_bits (n : Nat) : ∀ x a : Nat, x < 2 ^ n →
    (List.range n).foldl (fun t j => 2 * t + x / 2 ^ (n - 1 - j) % 2) a = a * 2 ^ n + x := by
  induction n with
  | zero => intro x a hx; simp; omega
  | succ n ih =>
    intro x a hx
    rw [List.range_succ, List.foldl_append]
    have h1 : (List.range n).foldl (fun t j => 2 * t + x / 2 ^ (n + 1 - 1 - j) % 2) a
        = (List.range n).foldl (fun t j => 2 * t + (x / 2) / 2 ^ (n - 1 - j) % 2) a := by
      apply List.foldl_ext
      intro t j hj
      rw [List.mem_range] at hj
      have hd : x / 2 ^ (n + 1 - 1 - j) = x / 2 / 2 ^ (n - 1 - j) := by
        rw [Nat.div_div_eq_div_mul]
        congr 1
        rw [← pow_succ']
        congr 1
        omega
      rw [hd]
    rw [h1, ih (x / 2) a (by rw [pow_succ] at hx; omega)]
    simp only [List.foldl_cons, List.foldl_nil]
    have he : n + 1 - 1 - n = 0 := by omega
    rw [he, pow_zero, Nat.div_one, pow_succ, ← mul_assoc]
    omega

lemma quadkey_data (x y z : Nat) (hz : z ≤ 64) :
    (xyz_to_bing_quadkey x y z).data = (List.range z).map
      (fun j => Char.ofNat (48 + (x / 2 ^ (z - 1 - j) % 2 + 2 * (y / 2 ^ (z - 1 - j) % 2)))) := by
  show (List.range z).map _ = _
  apply List.map_congr_left
  intro j hj
  rw [List.mem_range] at hj
  rw [bing_digit_eq x y z j hz hj]

lemma or_shift_bits (a b : Nat) : (a % 2) ||| ((b % 2) <<< 1) = a % 2 + 2 * (b % 2) := by
  have m1 : a % 2 = 0 ∨ a % 2 = 1 := by omega
  have m2 : b % 2 = 0 ∨ b % 2 = 1 := by omega
  rcases m1 with m1 | m1 <;> rcases m2 with m2 | m2 <;> rw [m1, m2] <;> decide

lemma char_digit_toNat (d : Nat) (hd : d < 4) : (Char.ofNat (48 + d)).toNat = 48 + d := by
  interval_cases d <;> decide

lemma shr_and_one (x i : Nat) : (x >>> i) &&& 1 = x / 2 ^ i % 2 := by
  rw [Nat.shiftRight_eq_div_pow, Nat.and_one_is_mod]

/-- C5 (amended: restricted to z ≤ 64, the range where the u64 shift
`1u64 << (i - 1)` does not overflow): for x, y < 2 ^ z the quadkey is a
string of exactly z characters, the character for bit position z - 1 - j
is the digit `((x >> i) & 1) | (((y >> i) & 1) << 1)` rendered in
decimal, and bit-pair decoding recovers (x, y). -/
theorem C5_bing_quadkey_roundtrip (x y z : Nat) (hz : z ≤ 64) (hx : x < 2 ^ z) (hy : y < 2 ^ z) :
    (xyz_to_bing_quadkey x y z).length = z ∧
    (xyz_to_bing_quadkey x y z).data = (List.range z).map
      (fun j => Char.ofNat (48 +
        (((x >>> (z - 1 - j)) &&& 1) ||| (((y >>> (z - 1 - j)) &&& 1) <<< 1)))) ∧
    quadkey_decode (xyz_to_bing_quadkey x y z) = (x, y) := by
  have hdata := quadkey_data x y z hz
  refine ⟨?_, ?_, ?_⟩
  · show (xyz_to_bing_quadkey x y z).data.length = z
    rw [hdata, List.length_map, List.length_range]
  · rw [hdata]
    apply List.map_congr_left
    intro j hj
    rw [shr_and_one, shr_and_one, or_shift_bits]
  · unfold quadkey_decode
    rw [hdata, List.foldl_map, List.foldl_map]
    rw [Prod.mk.injEq]
    constructor
    · have h1 : (List.range z).foldl (fun a j => 2 * a +
          ((Char.ofNat (48 + (x / 2 ^ (z - 1 - j) % 2 + 2 * (y / 2 ^ (z - 1 - j) % 2)))).toNat - 48) % 2) 0
          = (List.range z).foldl (fun a j => 2 * a + x / 2 ^ (z - 1 - j) % 2) 0 := by
        apply List.foldl_ext
        intro a j hj
        rw [char_digit_toNat (x / 2 ^ (z - 1 - j) % 2 + 2 * (y / 2 ^ (z - 1 - j) % 2)) (by omega)]
        omega
      rw [h1, foldl_double_bits z x 0 hx]
      simp
    · have h2 : (List.range z).foldl (fun a j => 2 * a +
          ((Char.ofNat (48 + (x / 2 ^ (z - 1 - j) % 2 + 2 * (y / 2 ^ (z - 1 - j) % 2)))).toNat - 48) / 2 % 2) 0
          = (List.range z).foldl (fun a j => 2 * a + y / 2 ^ (z - 1 - j) % 2) 0 := by
        apply List.foldl_ext
        intro a j hj
        rw [char_digit_toNat (x / 2 ^ (z - 1 - j) % 2 + 2 * (y / 2 ^ (z - 1 - j) % 2)) (by omega)]
        omega
      rw [h2, foldl_double_bits z y 0 hy]
      simp

set_option maxRecDepth 8000 in
/-- C5 counterexample: at (x, y, z) = (1, 0, 65) the loop index i = 65
shifts by 64, which a u64 masks to a shift by 0, so the top digit reads
bit 0 of x again; bit-pair decoding then yields 2 ^ 64 + 1, not 1.  The
claim as stated quantifies over all z with x, y < 2 ^ z and fails here. -/
theorem C5_cex : quadkey_decode (xyz_to_bing_quadkey 1 0 65) ≠ (1, 0) := by decide

set_option maxRecDepth 8000 in
/-- C5 witness: the quadkey test vector of the spec, (3, 5, 3) ↦ "213",
together with its round trip, obtained from the amended theorem. -/
theorem C5_witness :
    quadkey_decode (xyz_to_bing_quadkey 3 5 3) = (3, 5) ∧ xyz_to_bing_quadkey 3 5 3 = "213" :=
  ⟨(C5_bing_quadkey_roundtrip 3 5 3 (by norm_num) (by norm_num) (by norm_num)).2.2, by decide⟩

/-! ### Root tiles (claim C7) -/

lemma pow2u64_eq_of_le (z : Nat) (hz : z ≤ 63) : pow2u64 z = 2 ^ z := by
  unfold pow2u64
  exact Nat.mod_eq_of_lt (Nat.pow_lt_pow_right (by norm_num) (by omega))

/-- C7 (amended: restricted to z ≤ 63, the range where `2u64.pow(z)`
does not overflow): get_root_tiles z contains exactly the coordinates
with x < 2 ^ z, y < 2 ^ z at level z, each exactly once; at z = 1 the
result is precisely the four root tiles, and spawn_root_planet_tiles
spawns one root tile bundle per coordinate. -/
theorem C7_get_root_tiles_spec :
    (∀ z : Nat, z ≤ 63 → ∀ c : TileCoord,
       c ∈ TileCoord.get_root_tiles z ↔ c.x < 2 ^ z ∧ c.y < 2 ^ z ∧ c.z = z) ∧
    (∀ z : Nat, (TileCoord.get_root_tiles z).Nodup) ∧
    (TileCoord.get_root_tiles 1).Perm
      [TileCoord.mk 0 0 1, TileCoord.mk 1 0 1, TileCoord.mk 0 1 1, TileCoord.mk 1 1 1] ∧
    (∀ ent z, (spawn_root_planet_tiles ent z).map SpawnTilePls.coord
       = TileCoord.get_root_tiles z) := by
  refine ⟨?_, ?_, ?_, ?_⟩
  · intro z hz c
    simp only [TileCoord.get_root_tiles, pow2u64_eq_of_le z hz, List.mem_flatMap,
      List.mem_map, List.mem_range]
    constructor
    · rintro ⟨x, hx, y, hy, rfl⟩
      exact ⟨hx, hy, rfl⟩
    · rintro ⟨h1, h2, h3⟩
      exact ⟨c.x, h1, c.y, h2, by cases c; simp_all⟩
  · intro z
    unfold TileCoord.get_root_tiles
    refine List.nodup_flatMap.2 ⟨?_, ?_⟩
    · intro x _
      refine List.Nodup.map ?_ (List.nodup_range _)
      intro a b h
      simpa using h
    · refine List.Pairwise.imp ?_ (List.pairwise_lt_range _)
      intro a b hab t ht1 ht2
      simp only [List.mem_map, List.mem_range] at ht1 ht2
      obtain ⟨y1, _, rfl⟩ := ht1
      obtain ⟨y2, _, he⟩ := ht2
      have : b = a := by simpa using congrArg TileCoord.x he
      omega
  · decide
  · intro ent z
    simp only [spawn_root_planet_tiles, List.map_map]
    exact List.map_id _

/-- C7 counterexample: at z = 64 the claim as stated still demands the
full root set, but `2u64.pow(64)` wraps to 0 in a release build (and
panics in a debug build), so the loop is empty and no tile is produced. -/
theorem C7_cex : TileCoord.mk 0 0 64 ∉ TileCoord.get_root_tiles 64 := by decide

/-- C7 witness: the root tile (1, 0, 1) of the four expected at zoom 1
is produced, by the amended theorem at concrete input. -/
theorem C7_witness : TileCoord.mk 1 0 1 ∈ TileCoord.get_root_tiles 1 :=
  (C7_get_root_tiles_spec.1 1 (by norm_num) (TileCoord.mk 1 0 1)).mpr
    ⟨by norm_num, by norm_num, rfl⟩

/-! ### Tile request validation: `src/osm_tile_downloader/src/download_tile.rs`
(claims C4 and C10) -/

/-- Server descriptor, `TileServerConfig` from
`src/osm_tile_downloader/src/config.rs`. -/
structure TileServerConfig where
  name : String
  comment : String
  url : String
  width : Nat
  height : Nat
  max_level : Nat
  img_type : String
  map_type : String
  servers : Option (List String)
deriving DecidableEq, Repr

/-- Request identity, `TileFetchId` from
`src/osm_tile_downloader/src/download_tile.rs`. -/
structure TileFetchId where
  x : Nat
  y : Nat
  z : Nat
  server_name : String
  extension : String
deriving DecidableEq, Repr

/-- Embedding of `TileFetchId::is_valid_request` (release-build
semantics), given the server config that the request server name
resolves to.  The source computes `max_extent = 2u64.pow(z) - 1` only
after the `max_level < z` guard; on overflow a release build wraps, so
`2u64.pow(z)` is `pow2u64 z` and the subtraction wraps modulo `2 ^ 64`. -/
def is_valid_request (cfg : TileServerConfig) (t : TileFetchId) : Except String Unit :=
  if cfg.max_level < t.z then
    .error "got z above max for server"
  else if t.extension ≠ cfg.img_type then
    .error "got extension distinct from server img_type"
  else
    let max_extent := (pow2u64 t.z + 2 ^ 64 - 1) % 2 ^ 64
    if t.x ≤ max_extent ∧ t.y ≤ max_extent then .ok () else
      .error "x, y not inside extent for z"

/-- Embedding of `TileFetchId::is_valid_request` under debug-build
overflow checks: `none` models an arithmetic-overflow panic in
`2u64.pow(z)` or in the subtraction of 1. -/
def is_valid_request_checked (cfg : TileServerConfig) (t : TileFetchId) :
    Option (Except String Unit) :=
  if cfg.max_level < t.z then
    some (.error "got z above max for server")
  else if t.extension ≠ cfg.img_type then
    some (.error "got extension distinct from server img_type")
  else if _hpow : 2 ^ t.z < 2 ^ 64 then
    if _h1 : 1 ≤ 2 ^ t.z then
      let max_extent := 2 ^ t.z - 1
      some (if t.x ≤ max_extent ∧ t.y ≤ max_extent then .ok () else
        .error "x, y not inside extent for z")
    else none
  else none


/-- Value of the wrapped `2u64.pow(z) - 1` computation for z below 64. -/
lemma wrap_sub_one_eq (z : Nat) (hz : z < 64) :
    (pow2u64 z + 2 ^ 64 - 1) % 2 ^ 64 = 2 ^ z - 1 := by
  have hpow : 2 ^ z < 2 ^ 64 := Nat.pow_lt_pow_right (by norm_num) hz
  have hp : pow2u64 z = 2 ^ z := Nat.mod_eq_of_lt hpow
  have hone : (1 : Nat) ≤ 2 ^ z := Nat.one_le_two_pow
  rw [hp]
  have e1 : 2 ^ z + 2 ^ 64 - 1 = (2 ^ z - 1) + 2 ^ 64 := by omega
  rw [e1, Nat.add_mod_right]
  exact Nat.mod_eq_of_lt (by omega)

/-- Comparison against the wrapped extent agrees with the mathematical
bound x < 2 ^ z for every u64 value x. -/
lemma u64_max_extent (z x : Nat) (hx : x < 2 ^ 64) :
    (x ≤ (pow2u64 z + 2 ^ 64 - 1) % 2 ^ 64 ↔ x < 2 ^ z) := by
  rcases Nat.lt_or_ge z 64 with hz | hz
  · rw [wrap_sub_one_eq z hz]
    have hone : (1 : Nat) ≤ 2 ^ z := Nat.one_le_two_pow
    omega
  · have hdvd : 2 ^ 64 ∣ 2 ^ z := pow_dvd_pow 2 hz
    have hzero : pow2u64 z = 0 := by
      unfold pow2u64
      omega
    rw [hzero]
    have hbig : 2 ^ 64 ≤ 2 ^ z := Nat.pow_le_pow_right (by norm_num) hz
    have hme : (0 + 2 ^ 64 - 1) % 2 ^ 64 = 2 ^ 64 - 1 :=
      Nat.mod_eq_of_lt (by omega)
    rw [hme]
    omega

/-- C4: for every request whose server name resolves to a config and
whose x, y are u64 values, validation succeeds iff z is at most the
server max level, the extension equals the configured image type, and
x and y are below 2 ^ z; in every other case it returns an error. -/
theorem C4_is_valid_request_iff (cfg : TileServerConfig) (t : TileFetchId)
    (hx : t.x < 2 ^ 64) (hy : t.y < 2 ^ 64) :
    is_valid_request cfg t = .ok () ↔
      (t.z ≤ cfg.max_level ∧ t.extension = cfg.img_type ∧
       t.x < 2 ^ t.z ∧ t.y < 2 ^ t.z) := by
  have hex := u64_max_extent t.z t.x hx
  have hey := u64_max_extent t.z t.y hy
  simp only [is_valid_request]
  split_ifs with h1 h2 h3
  · constructor
    · intro h
      exact absurd h (by simp)
    · rintro ⟨h, -⟩
      omega
  · constructor
    · intro h
      exact absurd h (by simp)
    · rintro ⟨-, h, -⟩
      exact h2 h
  · push_neg at h2
    constructor
    · intro _
      exact ⟨by omega, h2, hex.mp h3.1, hey.mp h3.2⟩
    · intro _
      rfl
  · push_neg at h2
    constructor
    · intro h
      exact absurd h (by simp)
    · rintro ⟨-, -, hx2, hy2⟩
      exact h3 ⟨hex.mpr hx2, hey.mpr hy2⟩

/-- C4 witness: a concrete valid request against a concrete server
config is accepted. -/
theorem C4_witness :
    is_valid_request
      (TileServerConfig.mk "osm" "" "u" 256 256 19 "png" "map" none)
      (TileFetchId.mk 2 3 4 "osm" "png") = .ok () :=
  (C4_is_valid_request_iff _ _ (by norm_num) (by norm_num)).mpr
    ⟨by norm_num, rfl, by norm_num, by norm_num⟩

/-- C10: when the server max level is below 64, the guard on z runs
before the extent computation, so the checked (debug, panicking)
semantics never hits an arithmetic overflow and agrees with the release
semantics everywhere: the validation function is total. -/
theorem C10_is_valid_request_total (cfg : TileServerConfig) (t : TileFetchId)
    (hml : cfg.max_level < 64) :
    is_valid_request_checked cfg t = some (is_valid_request cfg t) := by
  by_cases h1 : cfg.max_level < t.z
  · simp [is_valid_request_checked, is_valid_request, h1]
  · have hz64 : t.z < 64 := by omega
    have hpow : 2 ^ t.z < 2 ^ 64 := Nat.pow_lt_pow_right (by norm_num) hz64
    have hone : (1 : Nat) ≤ 2 ^ t.z := Nat.one_le_two_pow
    have hme := wrap_sub_one_eq t.z hz64
    by_cases h2 : t.extension = cfg.img_type
    · have hext : ¬ (t.extension ≠ cfg.img_type) := by simp [h2]
      unfold is_valid_request_checked is_valid_request
      rw [if_neg h1, if_neg h1, if_neg hext, if_neg hext, dif_pos hpow, dif_pos hone]
      show some _ = some _
      rw [hme]
    · simp [is_valid_request_checked, is_valid_request, h1, h2]

/-- C10 witness: at a config with max level 19 and a request with an
out-of-range x of 2 ^ 70, the checked run returns the error branch (no
panic) and agrees with the release-semantics embedding. -/
theorem C10_witness :
    is_valid_request_checked
      (TileServerConfig.mk "osm" "" "u" 256 256 19 "png" "map" none)
      (TileFetchId.mk (2 ^ 70) 0 4 "osm" "png")
    = some (is_valid_request
      (TileServerConfig.mk "osm" "" "u" 256 256 19 "png" "map" none)
      (TileFetchId.mk (2 ^ 70) 0 4 "osm" "png")) :=
  C10_is_valid_request_total _ _ (by norm_num)

/-! ### SOCKS5 proxy list parsing: `src/osm_tile_downloader/src/proxy_manager.rs`
lines 80..132 (claim C6).  The byte normalization and the regex scan are
not modelled; the embedding starts from the numeric captures
(a, b, c, d, port) that the regex produces for each candidate line and
models the validation array `cond` and the emission of the address
string. -/

/-- The `cond` array of `parse_socks5_proxy_list`: all octets between 1
and 255 and the port between 80 and 65536 (the source bound really is
65536). -/
def socks5_cond (a b c d port : Nat) : Bool :=
  1 ≤ a && 1 ≤ b && 1 ≤ c && 1 ≤ d &&
  a ≤ 255 && b ≤ 255 && c ≤ 255 && d ≤ 255 &&
  80 ≤ port && port ≤ 65536

/-- Address string emitted for accepted captures,
`format!("{}.{}.{}.{}:{}", ...)`. -/
def socks5_addr (a b c d port : Nat) : String :=
  toString a ++ "." ++ toString b ++ "." ++ toString c ++ "." ++ toString d
    ++ ":" ++ toString port

/-- Capture-processing loop of `parse_socks5_proxy_list`: keep the
candidates passing `cond` and emit their formatted address. -/
def parse_socks5_captures (caps : List (Nat × Nat × Nat × Nat × Nat)) : List String :=
  caps.filterMap (fun t =>
    if socks5_cond t.1 t.2.1 t.2.2.1 t.2.2.2.1 t.2.2.2.2
    then some (socks5_addr t.1 t.2.1 t.2.2.1 t.2.2.2.1 t.2.2.2.2)
    else none)

/-- C6 counterexample: the capture (1, 1, 1, 1, 65536) passes the
validation (the source checks `port <= 65536`) and the parser emits the
address "1.1.1.1:65536", whose port exceeds 65535 and therefore is not
a valid TCP port, contradicting the claim as stated. -/
theorem C6_cex :
    socks5_cond 1 1 1 1 65536 = true ∧
    parse_socks5_captures [(1, 1, 1, 1, 65536)] = ["1.1.1.1:65536"] ∧
    ¬ (65536 ≤ 65535) := by
  refine ⟨rfl, ?_, by omega⟩
  rfl

/-- C6 (amended: the port upper bound enforced by the code is 65536,
not 65535): every address emitted by the capture-processing stage comes
from a capture whose octets lie in 1..255 and whose port lies in
80..65536. -/
theorem C6_socks5_addr_ranges (caps : List (Nat × Nat × Nat × Nat × Nat))
    (s : String) (hs : s ∈ parse_socks5_captures caps) :
    ∃ a b c d port, s = socks5_addr a b c d port ∧
      1 ≤ a ∧ a ≤ 255 ∧ 1 ≤ b ∧ b ≤ 255 ∧ 1 ≤ c ∧ c ≤ 255 ∧ 1 ≤ d ∧ d ≤ 255 ∧
      80 ≤ port ∧ port ≤ 65536 := by
  unfold parse_socks5_captures at hs
  rw [List.mem_filterMap] at hs
  obtain ⟨t, -, ht⟩ := hs
  by_cases hc : socks5_cond t.1 t.2.1 t.2.2.1 t.2.2.2.1 t.2.2.2.2
  · rw [if_pos hc] at ht
    refine ⟨t.1, t.2.1, t.2.2.1, t.2.2.2.1, t.2.2.2.2, by simp_all, ?_⟩
    unfold socks5_cond at hc
    simp only [Bool.and_eq_true, decide_eq_true_eq] at hc
    omega
  · rw [if_neg hc] at ht
    exact absurd ht (by simp)

/-- C6 witness: a concrete emitted address, with its ranges, obtained
from the amended theorem. -/
theorem C6_witness :
    ∃ a b c d port, "1.2.3.4:8080" = socks5_addr a b c d port ∧
      1 ≤ a ∧ a ≤ 255 ∧ 1 ≤ b ∧ b ≤ 255 ∧ 1 ≤ c ∧ c ≤ 255 ∧ 1 ≤ d ∧ d ≤ 255 ∧
      80 ≤ port ∧ port ≤ 65536 :=
  C6_socks5_addr_ranges [(1, 2, 3, 4, 8080)] "1.2.3.4:8080" (by decide)

/-! ### Proxy statistics update: `proxy_stat_increment` in
`src/osm_tile_downloader/src/proxy_manager.rs` lines 360..402 (claim
C9).  Timestamps (f64 seconds) are abstracted as Nat; the u64 counters
are modelled as Nat. -/

/-- Catalog entry, `Socks5ProxyEntry` from
`src/osm_tile_downloader/src/proxy_manager.rs`. -/
structure Socks5ProxyEntry where
  addr : String
  category : String
  last_check : Option Nat
  last_lag : Option Nat
  last_scraped : Nat
  last_check_error : String
  last_remote_ip : String
  checked : Bool
  accepted : Bool
  created_at : Nat
  failed_checks : Nat
  last_success_count : Nat
  last_err_count : Nat
deriving DecidableEq, Repr

/-- Entry update performed by `proxy_stat_increment` when the proxy has
a catalog entry: on success refresh `last_check`, bump the success
count and re-accept; on failure bump the error count and drop
`accepted` only when the new error count exceeds 50 with no recorded
success. -/
def proxy_stat_entry_update (success : Bool) (now : Nat)
    (e : Socks5ProxyEntry) : Socks5ProxyEntry :=
  if success then
    { e with last_check := some now,
             last_success_count := e.last_success_count + 1,
             accepted := true }
  else
    let e2 := { e with last_err_count := e.last_err_count + 1 }
    if 50 < e2.last_err_count ∧ e2.last_success_count = 0 then
      { e2 with accepted := false }
    else
      e2

/-- C9: a failed attempt increments the error count, leaves the success
count alone, clears `accepted` exactly when the new error count is
above 50 with zero recorded successes, and hence never un-accepts an
entry that has at least one recorded success. -/
theorem C9_proxy_stat_failure (e : Socks5ProxyEntry) (now : Nat) :
    (proxy_stat_entry_update false now e).last_err_count = e.last_err_count + 1 ∧
    (proxy_stat_entry_update false now e).last_success_count = e.last_success_count ∧
    (proxy_stat_entry_update false now e).accepted =
      (if 50 < e.last_err_count + 1 ∧ e.last_success_count = 0 then false else e.accepted) ∧
    (1 ≤ e.last_success_count →
      (proxy_stat_entry_update false now e).accepted = e.accepted) := by
  unfold proxy_stat_entry_update
  simp only [if_neg (by simp : ¬ (false = true))]
  by_cases hc : 50 < e.last_err_count + 1 ∧ e.last_success_count = 0
  · rw [if_pos hc, if_pos hc]
    exact ⟨rfl, rfl, rfl, fun h => absurd hc.2 (by omega)⟩
  · rw [if_neg hc, if_neg hc]
    exact ⟨rfl, rfl, rfl, fun _ => rfl⟩

/-- C9 witness: an accepted entry with recorded successes keeps its
accepted flag across a failed attempt, by the theorem at a concrete
entry. -/
theorem C9_witness :
    (proxy_stat_entry_update false 7
      (Socks5ProxyEntry.mk "1.2.3.4:80" "web" none none 0 "" "" true true 0 0 3 60)).accepted
    = true :=
  (C9_proxy_stat_failure
      (Socks5ProxyEntry.mk "1.2.3.4:80" "web" none none 0 "" "" true true 0 0 3 60) 7).2.2.2
    (by norm_num)

/-! ### Split or merge decision: `check_merge_or_split` in
`src/crooked_earth/src/earth_fetch.rs` lines 555..602 (claim C3).  The
f32 arithmetic of the source is modelled over exact rationals: the
distance to the camera and the facing dot product of the two outward
normals enter as already-computed scalar inputs, and the source
constant `SCREEN_COVERAGE_FOR_SPLIT: f32 = 0.3` is the rational 3/10. -/

def SCREEN_COVERAGE_FOR_SPLIT : ℚ := 3 / 10

/-- Per-leaf closure `decide_split_or_merge` of `check_merge_or_split`:
screen coverage is the cartesian diagonal over the distance to the
camera, scaled by the facing cosine; the returned pair is
(should_split, should_merge). -/
def decide_split_or_merge (cartesian_diagonal dist_leaf_to_cam screen_ang_cos : ℚ)
    (z max_level : Nat) (parent_tile_is_some : Bool) : Bool × Bool :=
  let screen_coverage := cartesian_diagonal / dist_leaf_to_cam
  let screen_coverage := screen_coverage * screen_ang_cos
  let should_split := decide (SCREEN_COVERAGE_FOR_SPLIT < screen_coverage)
    && decide (z < max_level)
  let should_merge := parent_tile_is_some
    && (decide (max_level < z) || decide (screen_coverage < SCREEN_COVERAGE_FOR_SPLIT / 4))
  (should_split, should_merge)

/-- C3: a split is requested iff the effective coverage
(diagonal / distance, times the facing dot product) strictly exceeds
0.3 and z is strictly below the server max level; a merge is requested
iff the leaf has a parent tile and either z strictly exceeds the max
level or the effective coverage is strictly below 0.3 / 4. -/
theorem C3_split_merge_iff (diag dist facing : ℚ) (z max_level : Nat)
    (parent_tile_is_some : Bool) :
    ((decide_split_or_merge diag dist facing z max_level parent_tile_is_some).1 = true ↔
      (diag / dist * facing > (0.3 : ℚ) ∧ z < max_level)) ∧
    ((decide_split_or_merge diag dist facing z max_level parent_tile_is_some).2 = true ↔
      (parent_tile_is_some = true ∧
        (z > max_level ∨ diag / dist * facing < (0.3 : ℚ) / 4))) := by
  have hq : (0.3 : ℚ) = SCREEN_COVERAGE_FOR_SPLIT := by
    unfold SCREEN_COVERAGE_FOR_SPLIT
    norm_num
  rw [hq]
  unfold decide_split_or_merge
  constructor
  · simp [gt_iff_lt, and_comm]
  · simp [gt_iff_lt]

/-! ### Durable download cache: `download2` and `do_download` in
`src/osm_tile_downloader/src/proxy_manager.rs` lines 736..880 (claims
C1, C2, C8).  The sled trees for one request type are modelled as maps
from requests to optional values; the filesystem is modelled by a
predicate telling whether a file sits at `get_final_path()` plus a log
of the operations performed on that path.  The network race of
`download_into` enters `do_download` as an already-computed result.
The u8 `fail_count` is modelled as Nat (the retry logic keeps it at
most `retry_count`, far below the u8 wrap). -/

/-- Durable record per request, `DownloadEntry` from
`src/osm_tile_downloader/src/proxy_manager.rs`. -/
structure DownloadEntry (T : Type) where
  parse_result : Option T
  error_txt : String
  fail_count : Nat
deriving DecidableEq, Repr

/-- The per-type tree state: the final tree, the pending tree (value =
currently running) and the filesystem at the final path of each
request. -/
structure DlState (Req T : Type) where
  final : Req → Option (DownloadEntry T)
  pending : Req → Option Bool
  file_at_final : Req → Bool

/-- Static capabilities of a request type, the `DownloadId` trait
methods that `download2` and `do_download` consult: validity of a
request, the outcome of `parse_respose` on the file currently at the
final path, the retry count (default 3) and the type name used in
error messages. -/
structure DlEnv (Req T : Type) where
  type_name : String
  valid : Req → Bool
  parse_file : Req → Except String T
  retry_count : Nat

/-- Operations `download2` can perform on the file at the final path of
the request: a metadata probe, a parse of the contents, a deletion. -/
inductive FileOp where
  | stat
  | parse
  | delete
deriving DecidableEq, Repr

/-- Pointwise update of a tree map. -/
def updMap {Req A : Type} [DecidableEq Req] (f : Req → Option A) (k : Req)
    (v : Option A) : Req → Option A :=
  fun r => if r = k then v else f r

/-- Result of one `download2` call: the returned value, the state after
the call, and the file operations performed on the final path. -/
structure Dl2Out (Req T : Type) where
  result : Except String T
  state : DlState Req T
  ops : List FileOp

/-- Tail of `download2` (source lines 787..813): insert the request
into the pending tree as not running, re-read the final tree for the
previous error text and fail count, overwrite the final entry with a
parse-less record whose error text starts with "pending", and bail. -/
def download2_queue {Req T : Type} [DecidableEq Req]
    (s : DlState Req T) (req : Req) (ops : List FileOp) : Dl2Out Req T :=
  let s1 : DlState Req T := { s with pending := updMap s.pending req (some false) }
  let old : String × Nat :=
    match s1.final req with
    | some old => (old.error_txt, old.fail_count)
    | none => ("", 0)
  let entry : DownloadEntry T :=
    DownloadEntry.mk none
      ("pending (try #" ++ toString (old.2 + 1) ++ ")...\n\n" ++ old.1) old.2
  Dl2Out.mk (Except.error ("just added to pending, plz wait. " ++ old.1))
    { s1 with final := updMap s1.final req (some entry) } ops

/-- Embedding of `download2` (source lines 736..814): bail on an
invalid request; return the cached final-tree entry if present (the
stored result, else the stored error); otherwise probe the file at the
final path, accepting a parseable file as a fresh positive entry and
deleting an unparseable one; finally queue the request. -/
def download2 {Req T : Type} [DecidableEq Req] (env : DlEnv Req T)
    (s : DlState Req T) (req : Req) : Dl2Out Req T :=
  if env.valid req = false then
    Dl2Out.mk (Except.error (env.type_name ++ ": request invalid")) s []
  else
    match s.final req with
    | some entry =>
      match entry.parse_result with
      | some r => Dl2Out.mk (Except.ok r) s []
      | none =>
        Dl2Out.mk
          (Except.error (env.type_name ++ ": download failed (pre-existing error): "
            ++ entry.error_txt)) s []
    | none =>
      if s.file_at_final req then
        match env.parse_file req with
        | Except.ok r =>
          let entry : DownloadEntry T := DownloadEntry.mk (some r) "" 0
          Dl2Out.mk (Except.ok r) { s with final := updMap s.final req (some entry) }
            [FileOp.stat, FileOp.parse]
        | Except.error _ =>
          download2_queue
            { s with file_at_final := fun r => if r = req then false else s.file_at_final r }
            req [FileOp.stat, FileOp.parse, FileOp.delete]
      else
        download2_queue s req [FileOp.stat]

/-- Result of one `do_download` call: the returned value, the state
after the call, and the sleep (in seconds) taken before re-queuing a
failed request, when one is taken. -/
structure DoDlOut (Req T : Type) where
  result : Except String T
  state : DlState Req T
  sleep_secs : Option Nat

/-- Embedding of `do_download` (source lines 816..880) with the outcome
of the parallel download race given as `parsed`: read the previous
error text and fail count, write the new final entry (a win resets the
record, a loss increments the fail count and prepends the new message),
rename the temp file to the final path on a win, then either evict the
pending entry (win, or fail count at the retry limit) or re-insert it
as not running after sleeping 15 times the new fail count. -/
def do_download {Req T : Type} [DecidableEq Req] (env : DlEnv Req T)
    (s : DlState Req T) (req : Req) (parsed : Except String T) : DoDlOut Req T :=
  let old : String × Nat :=
    match s.final req with
    | some old => (old.error_txt, old.fail_count)
    | none => ("", 0)
  let db_entry : DownloadEntry T :=
    match parsed with
    | Except.ok res => DownloadEntry.mk (some res) "" 0
    | Except.error err =>
      DownloadEntry.mk none
        ("download attempt #" ++ toString (old.2 + 1) ++ " failed: " ++ err
          ++ "\n" ++ old.1) (old.2 + 1)
  let file2 : Req → Bool :=
    if parsed.isOk then (fun r => if r = req then true else s.file_at_final r)
    else s.file_at_final
  let s1 : DlState Req T :=
    { s with final := updMap s.final req (some db_entry), file_at_final := file2 }
  let result : Except String T :=
    match db_entry.parse_result with
    | some r => Except.ok r
    | none =>
      Except.error (env.type_name ++ ": failed to download: " ++ db_entry.error_txt)
  if db_entry.parse_result.isSome || env.retry_count ≤ db_entry.fail_count then
    DoDlOut.mk result { s1 with pending := updMap s1.pending req none } none
  else
    DoDlOut.mk result { s1 with pending := updMap s1.pending req (some false) }
      (some (15 * db_entry.fail_count))

lemma download2_cached_eval {Req T : Type} [DecidableEq Req] (env : DlEnv Req T)
    (s : DlState Req T) (req : Req) (e : DownloadEntry T)
    (hvalid : env.valid req = true) (hentry : s.final req = some e) :
    download2 env s req = Dl2Out.mk
      (match e.parse_result with
       | some r => Except.ok r
       | none => Except.error (env.type_name ++ ": download failed (pre-existing error): "
           ++ e.error_txt)) s [] := by
  unfold download2
  rw [hvalid, hentry]
  rcases hp : e.parse_result with _ | r <;> simp [hp]

/-- C1 (amended: restricted to requests passing is_valid_request,
which `download2` checks before reading the cache): when the final tree
already holds an entry, `download2` returns the stored parse result
when present and otherwise an error carrying the stored error text, in
both cases leaving the state untouched (so nothing enters the pending
tree) and performing no operation on the file at the final path. -/
theorem C1_download2_cached {Req T : Type} [DecidableEq Req] (env : DlEnv Req T)
    (s : DlState Req T) (req : Req) (e : DownloadEntry T)
    (hvalid : env.valid req = true) (hentry : s.final req = some e) :
    (download2 env s req).state = s ∧
    (download2 env s req).ops = [] ∧
    (∀ r, e.parse_result = some r → (download2 env s req).result = Except.ok r) ∧
    (e.parse_result = none → (download2 env s req).result =
      Except.error (env.type_name ++ ": download failed (pre-existing error): "
        ++ e.error_txt)) := by
  rw [download2_cached_eval env s req e hvalid hentry]
  refine ⟨rfl, rfl, fun r hr => ?_, fun hn => ?_⟩
  · simp [hr]
  · simp [hn]

def egEnv : DlEnv TileFetchId Nat :=
  DlEnv.mk "TileFetchId"
    (fun r => (is_valid_request
      (TileServerConfig.mk "osm" "" "u" 256 256 19 "png" "map" none) r).isOk)
    (fun _ => Except.error "no file") 3

def egReqBad : TileFetchId := TileFetchId.mk 0 0 25 "osm" "png"

def egReqOk : TileFetchId := TileFetchId.mk 2 3 4 "osm" "png"

def egStateC1 : DlState TileFetchId Nat :=
  DlState.mk
    (fun r => if r = egReqBad ∨ r = egReqOk then some (DownloadEntry.mk (some 7) "" 0) else none)
    (fun _ => none) (fun _ => false)

/-- C1 counterexample: an invalid request (z = 25 against a server
with max level 19) whose final tree entry holds the stored result 7 is
answered with the "request invalid" error, not with the stored parse
result, because `download2` validates before consulting the cache. -/
theorem C1_cex :
    egEnv.valid egReqBad = false ∧
    egStateC1.final egReqBad = some (DownloadEntry.mk (some 7) "" 0) ∧
    (download2 egEnv egStateC1 egReqBad).result = Except.error "TileFetchId: request invalid" ∧
    (download2 egEnv egStateC1 egReqBad).result ≠ Except.ok 7 := by
  refine ⟨rfl, by decide, rfl, ?_⟩
  have h : (download2 egEnv egStateC1 egReqBad).result
      = Except.error "TileFetchId: request invalid" := rfl
  rw [h]
  exact fun hh => Except.noConfusion hh

/-- C1 witness: the amended theorem applied to a concrete valid
request with a cached positive entry. -/
theorem C1_witness :
    (download2 egEnv egStateC1 egReqOk).result = Except.ok 7 ∧
    (download2 egEnv egStateC1 egReqOk).state = egStateC1 ∧
    (download2 egEnv egStateC1 egReqOk).ops = [] := by
  have h := C1_download2_cached egEnv egStateC1 egReqOk (DownloadEntry.mk (some 7) "" 0)
    (by decide) (by decide)
  exact ⟨h.2.2.1 7 rfl, h.1, h.2.1⟩

/-- Previously stored error text for a request, empty when the final
tree has no entry (the `if let` read shared by the source functions). -/
def prev_error {Req T : Type} (s : DlState Req T) (req : Req) : String :=
  match s.final req with
  | some old => old.error_txt
  | none => ""

/-- Previously stored fail count for a request, 0 when the final tree
has no entry. -/
def prev_fail {Req T : Type} (s : DlState Req T) (req : Req) : Nat :=
  match s.final req with
  | some old => old.fail_count
  | none => 0

/-- C2: after `do_download`, a win writes the reset entry
(result, empty error, fail count 0) and evicts the pending entry; a
loss stores the incremented fail count with the new message prepended
to the old error text, then re-queues as not running after a sleep of
15 times the new fail count when the new fail count is below the retry
count, and evicts otherwise. -/
theorem C2_do_download {Req T : Type} [DecidableEq Req] (env : DlEnv Req T)
    (s : DlState Req T) (req : Req) (parsed : Except String T) :
    (∀ r, parsed = Except.ok r →
      (do_download env s req parsed).state.final req
          = some (DownloadEntry.mk (some r) "" 0) ∧
      (do_download env s req parsed).state.pending req = none ∧
      (do_download env s req parsed).result = Except.ok r ∧
      (do_download env s req parsed).sleep_secs = none) ∧
    (∀ msg, parsed = Except.error msg →
      (do_download env s req parsed).state.final req
          = some (DownloadEntry.mk none
              ("download attempt #" ++ toString (prev_fail s req + 1) ++ " failed: "
                ++ msg ++ "\n" ++ prev_error s req)
              (prev_fail s req + 1)) ∧
      (if prev_fail s req + 1 < env.retry_count then
        (do_download env s req parsed).state.pending req = some false ∧
        (do_download env s req parsed).sleep_secs
          = some (15 * (prev_fail s req + 1))
      else
        (do_download env s req parsed).state.pending req = none ∧
        (do_download env s req parsed).sleep_secs = none)) := by
  constructor
  · rintro r rfl
    unfold do_download
    rcases hf : s.final req with _ | e <;>
      simp [hf, updMap]
  · rintro msg rfl
    rcases hf : s.final req with _ | e
    · have hpe : prev_error s req = "" := by simp [prev_error, hf]
      have hpf : prev_fail s req = 0 := by simp [prev_fail, hf]
      rw [hpe, hpf]
      rcases Nat.lt_or_ge (0 + 1) env.retry_count with hlt | hge
      · rw [if_pos hlt]
        unfold do_download
        have hc : ¬ (env.retry_count ≤ 0 + 1) := by omega
        simp [hf, updMap, hc]
      · rw [if_neg (by omega)]
        unfold do_download
        have hc : env.retry_count ≤ 0 + 1 := by omega
        simp [hf, updMap, hc]
    · have hpe : prev_error s req = e.error_txt := by simp [prev_error, hf]
      have hpf : prev_fail s req = e.fail_count := by simp [prev_fail, hf]
      rw [hpe, hpf]
      rcases Nat.lt_or_ge (e.fail_count + 1) env.retry_count with hlt | hge
      · rw [if_pos hlt]
        unfold do_download
        have hc : ¬ (env.retry_count ≤ e.fail_count + 1) := by omega
        simp [hf, updMap, hc]
      · rw [if_neg (by omega)]
        unfold do_download
        have hc : env.retry_count ≤ e.fail_count + 1 := by omega
        simp [hf, updMap, hc]

def egStateEmpty : DlState TileFetchId Nat :=
  DlState.mk (fun _ => none) (fun _ => none) (fun _ => false)

/-- C2 witness: a failed race on a fresh request is re-queued as not
running after a 15 second sleep, by the theorem at concrete input. -/
theorem C2_witness :
    (do_download egEnv egStateEmpty egReqOk (Except.error "boom")).state.pending egReqOk
      = some false ∧
    (do_download egEnv egStateEmpty egReqOk (Except.error "boom")).sleep_secs = some 15 := by
  have h := (C2_do_download egEnv egStateEmpty egReqOk (Except.error "boom")).2 "boom" rfl
  have hpf : prev_fail egStateEmpty egReqOk = 0 := rfl
  rw [hpf] at h
  have h2 := h.2
  rw [if_pos (by decide : 0 + 1 < egEnv.retry_count)] at h2
  refine ⟨h2.1, ?_⟩
  rw [h2.2]

lemma pending_txt_eq :
    "pending (try #" ++ toString (1 : Nat) ++ ")...\n\n"
      = "pending (try #1)...\n\n" := by decide

/-- C8: queuing a request (valid, no cached entry, no parseable file
at the final path) inserts the pending entry as not running and writes
a final entry with no parse result, the previous fail count (0 on this
path, since the cached-entry branch would have returned otherwise) and
an error text starting with "pending"; a second `download2` call before
the loop overwrites that entry then returns the cached error without
touching the file. -/
theorem C8_download2_queue_then_cached {Req T : Type} [DecidableEq Req]
    (env : DlEnv Req T) (s : DlState Req T) (req : Req)
    (hvalid : env.valid req = true) (hnone : s.final req = none)
    (hfile : s.file_at_final req = false ∨ ∃ m, env.parse_file req = Except.error m) :
    (download2 env s req).state.pending req = some false ∧
    (download2 env s req).state.final req
      = some (DownloadEntry.mk none "pending (try #1)...\n\n" 0) ∧
    (download2 env (download2 env s req).state req).result
      = Except.error (env.type_name ++ ": download failed (pre-existing error): "
          ++ "pending (try #1)...\n\n") ∧
    (download2 env (download2 env s req).state req).ops = [] := by
  have key : (download2 env s req).state.pending req = some false ∧
      (download2 env s req).state.final req
        = some (DownloadEntry.mk none "pending (try #1)...\n\n" 0) := by
    unfold download2
    rw [hvalid, hnone]
    rcases hff : s.file_at_final req with _ | _
    · simp [download2_queue, updMap, hnone, pending_txt_eq]
    · rcases hfile with hcontra | ⟨m, hm⟩
      · rw [hff] at hcontra
        exact absurd hcontra (by simp)
      · rw [hm]
        simp [download2_queue, updMap, hnone, pending_txt_eq]
  obtain ⟨hp, hfin⟩ := key
  have h2 := download2_cached_eval env (download2 env s req).state req
    (DownloadEntry.mk none "pending (try #1)...\n\n" 0) hvalid hfin
  rw [h2]
  exact ⟨hp, hfin, by simp, rfl⟩

/-- C8 witness: the theorem at a concrete valid request over the empty
state, taking the no-file branch. -/
theorem C8_witness :
    (download2 egEnv egStateEmpty egReqOk).state.pending egReqOk = some false ∧
    (download2 egEnv egStateEmpty egReqOk).state.final egReqOk
      = some (DownloadEntry.mk none "pending (try #1)...\n\n" 0) ∧
    (download2 egEnv (download2 egEnv egStateEmpty egReqOk).state egReqOk).result
      = Except.error ("TileFetchId" ++ ": download failed (pre-existing error): "
          ++ "pending (try #1)...\n\n") ∧
    (download2 egEnv (download2 egEnv egStateEmpty egReqOk).state egReqOk).ops = [] :=
  C8_download2_queue_then_cached egEnv egStateEmpty egReqOk (by decide) rfl
    (Or.inl rfl)
